import Mathlib

/-!
Shallow embedding of the bcoin secondary-index engine (`lib/indexers/`):
the key schema, the `IndexState`/`BlockMeta` records, the `IndexDB`
coordinator (`setTip`, `indexBlock`, `unindexBlock`, `verifyNetwork`,
`rollback`) and the two indexer plugins (`txindexer`, `addrindexer`).

Machine integers are modelled as `Nat` (all heights/times are u32 and the
source never overflows them); hashes and address hashes are opaque values
modelled as `Nat`; the ordered KV store is a function from typed keys to
optional values; a batch is a list of put/del operations applied on
`b.write()`.  A JavaScript exception thrown inside a handler aborts it
before `b.write()` is reached, so the store is unchanged on every error
path; functions that can throw return `Except`.
-/

namespace BcoinIndex

/-- Opaque 32-byte block / tx hash (the source carries these as hex strings
or buffers and never inspects their bytes in the code under study). -/
abbrev Hash := Nat

/-- Opaque 20- or 32-byte address hash. -/
abbrev Addr := Nat

/-- `consensus.NULL_HASH`, the all-zero hash used by `new IndexState()` and
`new BlockMeta()`. -/
def NULL_HASH : Hash := 0

/-- Typed keys of the index keyspace, from the tagged key schema used by
`indexdb.js` (`V`, `O`, `R`, `h[height]`) and by the plugins' local
layouts (`t[hash]` in txindexer, `T[addr][hash]` / `C[addr][hash][index]`
in addrindexer).  Each constructor is one `bdb.key` tag with its
fixed-width fields. -/
inductive IKey
  | V
  | O
  | R
  | h (height : Nat)
  | t (txh : Hash)
  | T (addr : Addr) (txh : Hash)
  | C (addr : Addr) (txh : Hash) (index : Nat)
deriving DecidableEq, Repr

/-- `records.js` `IndexState`: the persisted cursor
`{startHeight, startHash, height}`. -/
structure IndexState where
  startHeight : Nat
  startHash : Hash
  height : Nat
deriving DecidableEq, Repr

/-- `new IndexState()`. -/
def IndexState.new : IndexState := ⟨0, NULL_HASH, 0⟩

/-- `records.js` `BlockMeta`: `{hash, height, time}`. -/
structure BlockMeta where
  hash : Hash
  height : Nat
  time : Nat
deriving DecidableEq, Repr

/-- A chain entry as consumed by the indexers: the producer's lightweight
block handle `{hash, height, time}` (only these fields are read). -/
structure ChainEntry where
  hash : Hash
  height : Nat
  time : Nat
deriving DecidableEq, Repr

/-- `BlockMeta.fromEntry(entry)`: copy hash, height and time. -/
def BlockMeta.fromEntry (e : ChainEntry) : BlockMeta :=
  ⟨e.hash, e.height, e.time⟩

/-- An outpoint `{hash, index}` (`prevout` of an input). -/
structure Prevout where
  hash : Hash
  index : Nat
deriving DecidableEq, Repr

/-- A transaction input; the indexers read only `input.prevout`. -/
structure TxInput where
  prevout : Prevout
deriving DecidableEq, Repr

/-- A transaction output; the indexers read only `output.getHash()`,
the optional address hash of the output script. -/
structure TxOutput where
  getHash : Option Addr
deriving DecidableEq, Repr

/-- A transaction as consumed by the indexers: its hash, coinbase flag,
inputs and outputs. -/
structure ATX where
  hash : Hash
  isCoinbase : Bool
  inputs : List TxInput
  outputs : List TxOutput
deriving DecidableEq, Repr

/-- A coin returned by `view.getOutput(prevout)`; the indexers read only
`coin.getHash()`. -/
structure Coin where
  getHash : Option Addr
deriving DecidableEq, Repr

/-- A `CoinView`: lookup from outpoint to the originating output
(`view.getOutput`), `none` when the view has no entry. -/
def View := Prevout → Option Coin

/-- The empty `new CoinView()`. -/
def emptyView : View := fun _ => none

/-- Values stored in the index keyspace: `null` placeholders for the
presence-only `T`/`C` edges, raw byte values (the `O` magic), a stored
block hash (`BlockMeta.toHash()` under `h[height]`), an encoded
`IndexState` (`state.toRaw()` under `R`, encoding kept abstract), and an
encoded `TXMeta` (`TXMeta.fromTX(tx, entry, i).toRaw()` under `t[hash]`,
encoding kept abstract and injective in its fields). -/
inductive Val
  | null
  | raw (bytes : List Nat)
  | hashVal (h : Hash)
  | stateVal (s : IndexState)
  | txmeta (tx : ATX) (block : Hash) (height : Nat) (time : Nat) (index : Nat)
deriving DecidableEq, Repr

/-- The ordered KV store, as a map from typed keys to optional values. -/
def Store := IKey → Option Val

/-- The empty store. -/
def emptyStore : Store := fun _ => none

/-- One batch operation: `b.put(key, value)` or `b.del(key)`. -/
inductive Op
  | put (k : IKey) (v : Val)
  | del (k : IKey)
deriving DecidableEq, Repr

/-- Apply a single batch operation to the store. -/
def applyOp (store : Store) (op : Op) : Store :=
  match op with
  | .put k v => fun k2 => if k2 = k then some v else store k2
  | .del k => fun k2 => if k2 = k then none else store k2

/-- `b.write()`: apply the accumulated operations in order. -/
def applyBatch (ops : List Op) (store : Store) : Store :=
  ops.foldl applyOp store

/-- The distinct `Error` messages thrown by `indexdb.js`. -/
inductive IdbMsg
  | badChainSync
  | badDisconnectGenesis
  | badDisconnectMismatch
  | networkMismatch
  | rollbackFuture
deriving DecidableEq, Repr

/-- JavaScript exceptions raised by the embedded code. -/
inductive JsError
  /-- `assert(...)` failed (Node `assert` module). -/
  | assertionFailed
  /-- `this.del(...)` was invoked in `addrindexer.js` although the
  `Plugin` class defines no `del` method: `TypeError: this.del is not a
  function`. -/
  | typeErrorNoDel
  /-- `throw new Error(...)` with an IndexDB message. -/
  | idb (msg : IdbMsg)
deriving DecidableEq, Repr

/-!
## AddrIndexer (`addrindexer.js`)

The plugin obtains a fresh batch (`this.db.batch()`), records operations
on it while looping over `block.txs`, and commits with `b.write()` at the
end.  Any exception thrown inside the loops (a failed `assert(coin)` or
the `this.del(...)` calls — `Plugin` has no `del` method, so those raise
a `TypeError`) aborts the handler before `b.write()`, so the store is
unchanged.  The operation-list builders below mirror the loops; the
`run` wrappers apply the batch to the store exactly when no exception
was raised.
-/

/-- Modelled from the spec: `tx.getHashes(view)` (bcoin
`lib/primitives/tx.js`, not under `src/`): "the set of 20- or 32-byte
address hashes that tx touches: output scripts' addresses ∪ input
scripts' addresses (resolved through `view` for spent outputs)". -/
def txGetHashes (view : View) (tx : ATX) : List Addr :=
  (tx.outputs.filterMap (fun o => o.getHash) ++
    tx.inputs.filterMap (fun i => (view i.prevout).bind (fun c => c.getHash))).dedup

/-- `indexBlock`, inner input loop of one non-coinbase tx: for each input,
`view.getOutput(prevout)` must be non-null (`assert(coin)`), and when the
coin has an address hash the source calls `this.del(...)` — a method that
does not exist on `Plugin`, raising a `TypeError`.  No batch operation is
ever recorded by this loop. -/
def addrIndexInputs (view : View) : List TxInput → Except JsError Unit
  | [] => .ok ()
  | i :: rest =>
    match view i.prevout with
    | none => .error .assertionFailed
    | some coin =>
      match coin.getHash with
      | none => addrIndexInputs view rest
      | some _ => .error .typeErrorNoDel

/-- `indexBlock`, inner output loop of one tx: for output `j` with address
hash `addr`, `b.put(C[addr, hash, j], null)`. -/
def addrIndexOutputs (txh : Hash) (j : Nat) : List TxOutput → List Op
  | [] => []
  | o :: rest =>
    match o.getHash with
    | none => addrIndexOutputs txh (j + 1) rest
    | some addr => Op.put (IKey.C addr txh j) Val.null :: addrIndexOutputs txh (j + 1) rest

/-- `indexBlock`, body for one tx: `b.put(T[addr, hash], null)` for each
`addr` of `tx.getHashes(view)`; then the input loop (if not coinbase);
then the output loop. -/
def addrIndexTx (view : View) (tx : ATX) : Except JsError (List Op) :=
  let tPuts := (txGetHashes view tx).map (fun a => Op.put (IKey.T a tx.hash) Val.null)
  match (if tx.isCoinbase then .ok () else addrIndexInputs view tx.inputs :
      Except JsError Unit) with
  | .error e => .error e
  | .ok _ => .ok (tPuts ++ addrIndexOutputs tx.hash 0 tx.outputs)

/-- `AddrIndexer.indexBlock`: the operations accumulated on the batch over
all of `block.txs`, or the first exception raised. -/
def addrIndexOps (view : View) : List ATX → Except JsError (List Op)
  | [] => .ok []
  | tx :: rest => do
    let ops ← addrIndexTx view tx
    let more ← addrIndexOps view rest
    .ok (ops ++ more)

/-- `unindexBlock`, inner input loop of one non-coinbase tx: for each
input, `assert(coin)`; when the coin has an address hash,
`b.put(C[addr, prevout.hash, prevout.index], null)`. -/
def addrUnindexInputs (view : View) : List TxInput → Except JsError (List Op)
  | [] => .ok []
  | i :: rest =>
    match view i.prevout with
    | none => .error .assertionFailed
    | some coin =>
      match coin.getHash with
      | none => addrUnindexInputs view rest
      | some addr => do
        let more ← addrUnindexInputs view rest
        .ok (Op.put (IKey.C addr i.prevout.hash i.prevout.index) Val.null :: more)

/-- `unindexBlock`, inner output loop of one tx: for output `j` with
address hash `addr`, `b.del(C[addr, hash, j])`. -/
def addrUnindexOutputs (txh : Hash) (j : Nat) : List TxOutput → List Op
  | [] => []
  | o :: rest =>
    match o.getHash with
    | none => addrUnindexOutputs txh (j + 1) rest
    | some addr => Op.del (IKey.C addr txh j) :: addrUnindexOutputs txh (j + 1) rest

/-- `unindexBlock`, body for one tx: for each `addr` of
`tx.getHashes(view)` the source calls `this.del(...)` — no such method
exists on `Plugin`, so a non-empty hash list raises a `TypeError` on its
first iteration; then the input loop (if not coinbase); then the output
loop. -/
def addrUnindexTx (view : View) (tx : ATX) : Except JsError (List Op) :=
  match txGetHashes view tx with
  | _ :: _ => .error .typeErrorNoDel
  | [] => do
    let inOps ← (if tx.isCoinbase then .ok [] else addrUnindexInputs view tx.inputs :
        Except JsError (List Op))
    .ok (inOps ++ addrUnindexOutputs tx.hash 0 tx.outputs)

/-- `AddrIndexer.unindexBlock`: the operations accumulated on the batch
over all of `block.txs`, or the first exception raised. -/
def addrUnindexOps (view : View) : List ATX → Except JsError (List Op)
  | [] => .ok []
  | tx :: rest => do
    let ops ← addrUnindexTx view tx
    let more ← addrUnindexOps view rest
    .ok (ops ++ more)

/-- Effect of `AddrIndexer.indexBlock(entry, block, view)` on the store:
commit the batch if no exception was raised, otherwise the handler aborts
before `b.write()` and the store is unchanged (the error propagates to
IndexDB, which emits it). -/
def addrIndexBlockRun (view : View) (txs : List ATX) (store : Store) : Store :=
  match addrIndexOps view txs with
  | .ok ops => applyBatch ops store
  | .error _ => store

/-- Effect of `AddrIndexer.unindexBlock(entry, block, view)` on the store:
commit the batch if no exception was raised, otherwise the store is
unchanged. -/
def addrUnindexBlockRun (view : View) (txs : List ATX) (store : Store) : Store :=
  match addrUnindexOps view txs with
  | .ok ops => applyBatch ops store
  | .error _ => store

/-!
## TxIndexer (the `txindexer` plugin)
-/

/-- Modelled from the spec: `TXMeta.fromTX(tx, entry, i).toRaw()` (bcoin
`lib/primitives/txmeta.js`, not under `src/`): the encoded
`TXMeta{tx=tx_i, block=entry.hash, height=entry.height, time=entry.time,
index=i}`, kept as an abstract injective encoding of those fields. -/
def txMetaToRaw (tx : ATX) (entry : ChainEntry) (i : Nat) : Val :=
  Val.txmeta tx entry.hash entry.height entry.time i

/-- `TxIndexer.indexBlock` loop starting at index `i`: for each `tx`,
`b.put(t[tx.hash], TXMeta.fromTX(tx, entry, i).toRaw())`. -/
def txIndexOpsFrom (entry : ChainEntry) (i : Nat) : List ATX → List Op
  | [] => []
  | tx :: rest =>
    Op.put (IKey.t tx.hash) (txMetaToRaw tx entry i) :: txIndexOpsFrom entry (i + 1) rest

/-- `TxIndexer.indexBlock`: the batch accumulated over `block.txs`
(committed by `b.write()`). -/
def txIndexOps (entry : ChainEntry) (txs : List ATX) : List Op :=
  txIndexOpsFrom entry 0 txs

/-- `TxIndexer.unindexBlock`: for each `tx` of `block.txs`,
`b.del(t[tx.hash])`. -/
def txUnindexOps : List ATX → List Op
  | [] => []
  | tx :: rest => Op.del (IKey.t tx.hash) :: txUnindexOps rest

/-!
## IndexDB (`indexdb.js`)
-/

/-- The hash a stored value denotes when read back by
`IndexDB.getBlock` (`data.toString('hex')`).  Only `h[height]` keys are
ever read this way and they only ever hold `Val.hashVal` (written by
`setTip`/`syncState` as `meta.toHash()`); the other constructors are
mapped to the null hash. -/
def Val.asHash : Val → Hash
  | .hashVal h => h
  | _ => NULL_HASH

/-- `IndexDB.getBlock(height)`: read `h[height]`; `null` when absent,
otherwise a `BlockMeta` with the stored hash, the requested height and
default time `0` (the source sets only `hash` and `height`). -/
def getBlock (store : Store) (height : Nat) : Option BlockMeta :=
  (store (IKey.h height)).map (fun v => ⟨v.asHash, height, 0⟩)

/-- `setTip`, backward heightmap walk: `while (state.height !== tip.height)
{ b.del(h[state.height]); state.height -= 1 }`, entered with
`tip.height < state.height`, so it deletes `h[cur], h[cur-1], …,
h[tgt+1]`. -/
def hDels (cur tgt : Nat) : List Op :=
  if hlt : tgt < cur then Op.del (IKey.h cur) :: hDels (cur - 1) tgt else []
termination_by cur
decreasing_by omega

/-- `IndexDB.setTip(tip)`: clone the state; if `tip.height < state.height`
delete the heightmap entries above the new tip and lower the height; if
`tip.height > state.height`, `assert(tip.height === state.height + 1,
'Bad chain sync.')` (thrown before anything is written) and raise the
height; if `tip.height < state.startHeight` reset the start marker; then
put `h[tip.height] = tip.toHash()` and `R = state.toRaw()` and commit the
single batch.  Returns the new in-memory state and the committed batch;
on the assertion failure nothing is written and `this.state` is
untouched. -/
def setTip (s : IndexState) (tip : BlockMeta) : Except JsError (IndexState × List Op) :=
  if tip.height > s.height ∧ tip.height ≠ s.height + 1 then
    .error .assertionFailed
  else
    let dels := if tip.height < s.height then hDels s.height tip.height else []
    let s1 : IndexState :=
      if tip.height < s.height then { s with height := tip.height }
      else if tip.height > s.height then { s with height := s.height + 1 }
      else s
    let s2 : IndexState :=
      if tip.height < s1.startHeight then
        { s1 with startHeight := tip.height, startHash := tip.hash }
      else s1
    .ok (s2, dels ++ [Op.put (IKey.h tip.height) (Val.hashVal tip.hash),
                      Op.put IKey.R (Val.stateVal s2)])

/-- The action `IndexDB.indexBlock(entry, block, view)` takes on a
`connect` event, following the source's dispatch on
`tip.height` vs `this.state.height`. -/
inductive ConnectAction
  /-- `tip.height < state.height`: log a warning and `return 0` without
  touching the state or the store. -/
  | ignoredLow
  /-- `tip.height` is neither `state.height` nor `state.height + 1`:
  `await this.scan(this.state.height)` and `return 0`. -/
  | scanned (fromHeight : Nat)
  /-- `tip.height` equals `state.height` (idempotent re-index) or
  `state.height + 1`: fall through to `await this.setTip(tip)`. -/
  | setTipOn (tip : BlockMeta)
deriving DecidableEq, Repr

/-- `IndexDB.indexBlock(entry, block, view)`, dispatch part: which of the
three actions the handler performs for the given in-memory state. -/
def indexBlockAction (s : IndexState) (entry : ChainEntry) : ConnectAction :=
  let tip := BlockMeta.fromEntry entry
  if tip.height < s.height then .ignoredLow
  else if tip.height = s.height then .setTipOn tip
  else if tip.height ≠ s.height + 1 then .scanned s.height
  else .setTipOn tip

/-- `IndexDB.unindexBlock(entry, block, view)`: throw on a genesis
disconnect; warn and `return 0` on a high disconnect; throw on any other
height mismatch; otherwise read the previous block from the heightmap
(`assert(prev)`) and `setTip(prev)`.  Every thrown error occurs before
any batch is written, so it leaves both the in-memory state and the
store unchanged; the success path returns the new state and store. -/
def unindexBlock (s : IndexState) (store : Store) (entry : ChainEntry) :
    Except JsError (IndexState × Store) :=
  let tip := BlockMeta.fromEntry entry
  if tip.height = 0 then .error (.idb .badDisconnectGenesis)
  else if tip.height > s.height then .ok (s, store)
  else if tip.height ≠ s.height then .error (.idb .badDisconnectMismatch)
  else
    match getBlock store (tip.height - 1) with
    | none => .error .assertionFailed
    | some prev =>
      match setTip s prev with
      | .error e => .error e
      | .ok (s2, b) => .ok (s2, applyBatch b store)

/-- `fromU32(num)` (`indexdb.js` helper): a 4-byte little-endian buffer. -/
def u32LE (n : Nat) : List Nat :=
  [n % 256, n / 256 % 256, n / 65536 % 256, n / 16777216 % 256]

/-- `raw.readUInt32LE(0, true)`: little-endian read of the first four
bytes (out-of-range bytes read as 0 only for totality; the stored `O`
record always has exactly four bytes). -/
def readU32LE (bs : List Nat) : Nat :=
  bs.getD 0 0 + 256 * bs.getD 1 0 + 65536 * bs.getD 2 0 + 16777216 * bs.getD 3 0

/-- The bytes a stored value yields when read back as a buffer by
`verifyNetwork`; only `O` is read this way and it only ever holds
`Val.raw` (written by `verifyNetwork` itself). -/
def Val.asBytes : Val → List Nat
  | .raw bs => bs
  | _ => []

/-- `IndexDB.verifyNetwork()`: read `O`; when absent, put the configured
magic as 4 LE bytes in a one-operation batch and commit; when present,
throw a network-mismatch error exactly when the stored little-endian u32
differs from the configured magic, writing nothing either way. -/
def verifyNetwork (magic : Nat) (store : Store) : Except JsError Store :=
  match store IKey.O with
  | none => .ok (applyBatch [Op.put IKey.O (Val.raw (u32LE magic))] store)
  | some v =>
    if readU32LE v.asBytes ≠ magic then .error (.idb .networkMismatch)
    else .ok store

/-- An endpoint of the reverse iterator range opened by
`IndexDB.rollback`.  The source builds them from the `t` key of its own
layout file (`layout.t.build(tip.height + 1)` and `layout.t.max()`);
that layout file is not under `src/`, so the endpoints are recorded
symbolically, exactly as the source spells them. -/
inductive RangeKey
  /-- `layout.t.build(tip.height + 1)`. -/
  | tBuildHeight (n : Nat)
  /-- `layout.t.max()`. -/
  | tMax
deriving DecidableEq, Repr

/-- What `IndexDB.rollback(height)` does after its guards. -/
inductive RollbackAct
  /-- `height === state.height`: log and return — no iterator is opened,
  nothing is deleted, and `setTip` is not called. -/
  | sameHeight
  /-- `height < state.height`: open one reverse iterator over
  `[gte, lte]`, `batch.del` every key it yields, commit that batch, then
  `await this.setTip(tip)` with the block read from `h[height]`. -/
  | deleteRangeThenSetTip (gte lte : RangeKey) (tip : BlockMeta)
deriving DecidableEq, Repr

/-- `IndexDB.rollback(height)`: throw when `height > state.height`;
return immediately (without `setTip`) when `height === state.height`;
otherwise read `tip` from `h[height]` (`assert(tip)`), delete the single
reverse key range `gte: layout.t.build(tip.height + 1), lte:
layout.t.max()` in one batch, and call `setTip(tip)`.  No other key
range — in particular neither the `T` nor the `C` prefix — is
iterated. -/
def rollback (s : IndexState) (store : Store) (height : Nat) :
    Except JsError RollbackAct :=
  if height > s.height then .error (.idb .rollbackFuture)
  else if height = s.height then .ok .sameHeight
  else
    match getBlock store height with
    | none => .error .assertionFailed
    | some tip =>
      .ok (.deleteRangeThenSetTip (RangeKey.tBuildHeight (tip.height + 1))
            RangeKey.tMax tip)

/-!
## `records.js` serialization via bufio

`bio.write(size)` returns a `StaticWriter` over a fixed `size`-byte
buffer; each `write*` advances the offset; `render()` asserts that the
offset equals the allocated size before returning the buffer
(`assert(this.offset === data.length)` in bufio's `StaticWriter`).
Bytes are modelled as the list of bytes written so far.
-/

/-- A bufio `StaticWriter`: allocated size and bytes written so far. -/
structure SWriter where
  size : Nat
  data : List Nat
deriving DecidableEq, Repr

/-- `bio.write(size)`. -/
def bioWrite (size : Nat) : SWriter := ⟨size, []⟩

/-- `bw.writeHash(hash)`: writes the 32 bytes of the hash (the caller
supplies them; a well-formed hash has exactly 32 bytes). -/
def SWriter.writeHash (w : SWriter) (hashBytes : List Nat) : SWriter :=
  ⟨w.size, w.data ++ hashBytes⟩

/-- `bw.writeU32(n)`: writes 4 little-endian bytes. -/
def SWriter.writeU32 (w : SWriter) (n : Nat) : SWriter :=
  ⟨w.size, w.data ++ u32LE n⟩

/-- `bw.render()`: return the buffer, after bufio's assertion that
exactly `size` bytes were written. -/
def SWriter.render (w : SWriter) : Except JsError (List Nat) :=
  if w.data.length = w.size then .ok w.data else .error .assertionFailed

/-- `BlockMeta.toRaw()` (`records.js`): `bio.write(42)`, then
`writeHash(this.hash)` (32 bytes), `writeU32(this.height)`,
`writeU32(this.time)`, then `render()`. -/
def blockMetaToRaw (hashBytes : List Nat) (height time : Nat) :
    Except JsError (List Nat) :=
  ((((bioWrite 42).writeHash hashBytes).writeU32 height).writeU32 time).render

/-- `IndexState.toRaw()` (`records.js`): `bio.write(40)`, then
`writeU32(startHeight)`, `writeHash(startHash)` (32 bytes),
`writeU32(height)`, then `render()`. -/
def indexStateToRaw (startHeight : Nat) (startHashBytes : List Nat) (height : Nat) :
    Except JsError (List Nat) :=
  ((((bioWrite 40).writeU32 startHeight).writeHash startHashBytes).writeU32 height).render

/-!
## Concrete inputs used by counterexamples and witnesses
-/

/-- A one-output coinbase transaction whose single output pays to address
hash `1`; tx hash `2`. -/
def c1Tx : ATX := ⟨2, true, [], [⟨some 1⟩]⟩

/-- A store holding only the heightmap entry `h[5] ↦ hash 9`. -/
def storeH5 : Store := fun k => if k = IKey.h 5 then some (Val.hashVal 9) else none

/-- A store holding only the heightmap entry `h[3] ↦ hash 7`. -/
def storeH3 : Store := fun k => if k = IKey.h 3 then some (Val.hashVal 7) else none

/-- A store holding only a network-magic record `O ↦ raw [1,0,0,0]`
(little-endian magic `1`). -/
def storeO1 : Store := fun k => if k = IKey.O then some (Val.raw [1, 0, 0, 0]) else none

/-!
## Helper lemmas
-/

/-- Membership in the backward heightmap-deletion walk: `hDels cur tgt`
deletes exactly the heights in `(tgt, cur]`. -/
theorem hDels_mem (k : Nat) :
    ∀ cur tgt, (Op.del (IKey.h k) ∈ hDels cur tgt ↔ tgt < k ∧ k ≤ cur) := by
  intro cur
  induction cur using Nat.strong_induction_on with
  | _ cur ih =>
    intro tgt
    rw [hDels]
    split
    · rename_i hlt
      rw [List.mem_cons, ih (cur - 1) (by omega) tgt]
      simp only [Op.del.injEq, IKey.h.injEq]
      omega
    · rename_i hge
      simp only [List.not_mem_nil, false_iff]
      omega

/-- The txindexer forward loop, started at index `i`, enumerates the
transactions with their positions. -/
theorem txIndexOpsFrom_eq (entry : ChainEntry) :
    ∀ (txs : List ATX) (i : Nat),
      txIndexOpsFrom entry i txs =
        (List.enumFrom i txs).map
          (fun p => Op.put (IKey.t p.2.hash) (txMetaToRaw p.2 entry p.1)) := by
  intro txs
  induction txs with
  | nil => intro i; rfl
  | cons tx rest ih =>
    intro i
    simp only [txIndexOpsFrom, List.enumFrom, List.map_cons, ih (i + 1)]

/-!
## The claims
-/

/-- Claim C2, counterexample: with `state.height = 5`, a connect event at
`entry.height = 3 < 5` does not trigger `scan(state.height)`: the handler
takes the `ignoredLow` early return (`return 0` after a warning), so the
claim that it triggers `scan(5)` is false at this input. -/
theorem claimC2_counterexample :
    indexBlockAction ⟨0, 0, 5⟩ ⟨7, 3, 0⟩ ≠ ConnectAction.scanned 5 := by decide

/-- Claim C2, amended: for every connect event whose `entry.height` is
strictly less than `state.height`, `IndexDB.indexBlock` logs a warning
and ignores the event — it performs neither `scan` nor `setTip` and
leaves state and store untouched. -/
theorem claimC2_amended (s : IndexState) (entry : ChainEntry)
    (hlt : entry.height < s.height) :
    indexBlockAction s entry = ConnectAction.ignoredLow := by
  unfold indexBlockAction BlockMeta.fromEntry
  simp [hlt]

/-- Witness for `claimC2_amended` at `state.height = 5`,
`entry.height = 3`. -/
theorem claimC2_amended_witness :
    (3 < 5) ∧ indexBlockAction ⟨0, 0, 5⟩ ⟨7, 3, 0⟩ = ConnectAction.ignoredLow :=
  ⟨by decide, claimC2_amended ⟨0, 0, 5⟩ ⟨7, 3, 0⟩ (by decide)⟩

/-- Claim C5: for every tip with `tip.height > state.height + 1`,
`setTip(tip)` fails with the `'Bad chain sync.'` assertion; the failure
is raised before any batch operation is recorded or written and before
`this.state` is reassigned, so the store and the in-memory `IndexState`
are unchanged (the embedding returns an error carrying no new state and
no batch). -/
theorem claimC5 (s : IndexState) (tip : BlockMeta)
    (hgt : tip.height > s.height + 1) :
    setTip s tip = .error .assertionFailed := by
  unfold setTip
  rw [if_pos ⟨by omega, by omega⟩]

/-- Witness for `claimC5` at `state.height = 1`, `tip.height = 5`. -/
theorem claimC5_witness :
    (5 > 1 + 1) ∧ setTip ⟨0, 0, 1⟩ ⟨9, 5, 0⟩ = .error .assertionFailed :=
  ⟨by decide, claimC5 ⟨0, 0, 1⟩ ⟨9, 5, 0⟩ (by decide)⟩

/-- Claim C6: a disconnect at `entry.height = 0` throws the
bad-disconnection (genesis) error, and a disconnect whose height is
neither equal to nor greater than `state.height` throws the
bad-disconnection (height mismatch) error; both errors are thrown before
`setTip` and before any batch exists, so `R.height` and the store are
unchanged (the embedding returns an error carrying no new state and no
new store). -/
theorem claimC6 (s : IndexState) (store : Store) (entry : ChainEntry) :
    (entry.height = 0 →
      unindexBlock s store entry = .error (.idb .badDisconnectGenesis))
    ∧ (entry.height ≠ 0 → entry.height < s.height →
      unindexBlock s store entry = .error (.idb .badDisconnectMismatch)) := by
  constructor
  · intro h0
    unfold unindexBlock BlockMeta.fromEntry
    simp [h0]
  · intro h0 hlt
    unfold unindexBlock BlockMeta.fromEntry
    simp only
    rw [if_neg h0, if_neg (by omega), if_pos (by omega)]

/-- Witness for `claimC6`: a genesis disconnect at height `0`, and a
mismatch disconnect at height `3` with `state.height = 5`. -/
theorem claimC6_witness :
    unindexBlock ⟨0, 0, 5⟩ emptyStore ⟨7, 0, 0⟩ = .error (.idb .badDisconnectGenesis)
    ∧ unindexBlock ⟨0, 0, 5⟩ emptyStore ⟨7, 3, 0⟩ = .error (.idb .badDisconnectMismatch) :=
  ⟨(claimC6 ⟨0, 0, 5⟩ emptyStore ⟨7, 0, 0⟩).1 rfl,
   (claimC6 ⟨0, 0, 5⟩ emptyStore ⟨7, 3, 0⟩).2 (by decide) (by decide)⟩

/-- Claim C10: a disconnect event with `entry.height > state.height` (and
`entry.height ≠ 0`) returns normally (`return 0` after a warning),
leaving the in-memory `IndexState` and every record of the store
unchanged. -/
theorem claimC10 (s : IndexState) (store : Store) (entry : ChainEntry)
    (h0 : entry.height ≠ 0) (hgt : entry.height > s.height) :
    unindexBlock s store entry = .ok (s, store) := by
  unfold unindexBlock BlockMeta.fromEntry
  simp only
  rw [if_neg h0, if_pos hgt]

/-- Witness for `claimC10` at `state.height = 5`, `entry.height = 7`. -/
theorem claimC10_witness :
    (7 ≠ 0) ∧ (7 > 5) ∧
      unindexBlock ⟨0, 0, 5⟩ emptyStore ⟨9, 7, 0⟩ = .ok (⟨0, 0, 5⟩, emptyStore) :=
  ⟨by decide, by decide, claimC10 ⟨0, 0, 5⟩ emptyStore ⟨9, 7, 0⟩ (by decide) (by decide)⟩

/-- Claim C3, counterexample: at the target height `h = state.height = 5`
(≤ `state.height`, with `h[5]` present in the store), `rollback(5)` takes
the equal-height early return — it opens no iterator, deletes nothing and
never calls `setTip` — so the claim that every `rollback(h)` with
`h ≤ state.height` deletes the indexer ranges and then calls `setTip` on
the block stored at `h[h]` is false at this input. -/
theorem claimC3_counterexample :
    rollback ⟨0, 0, 5⟩ storeH5 5 = .ok RollbackAct.sameHeight := by
  unfold rollback
  simp

/-- Claim C3, amended: for every `h < state.height` with `h[h]` present,
`rollback(h)` deletes, in one reverse iteration, only the key range from
`layout.t.build(h + 1)` to `layout.t.max()` — a single range inside the
TxIndexer `t` prefix; the AddrIndexer prefixes `T` and `C` are not
iterated — and then calls `setTip` on the block stored at `h[h]`; for
`h = state.height` it returns immediately without deleting anything and
without calling `setTip`. -/
theorem claimC3_amended (s : IndexState) (store : Store) (h : Nat) (x : Hash)
    (hlt : h < s.height) (hst : store (IKey.h h) = some (Val.hashVal x)) :
    rollback s store h =
      .ok (RollbackAct.deleteRangeThenSetTip (RangeKey.tBuildHeight (h + 1))
        RangeKey.tMax ⟨x, h, 0⟩)
    ∧ rollback s store s.height = .ok RollbackAct.sameHeight := by
  constructor
  · unfold rollback
    rw [if_neg (by omega), if_neg (by omega)]
    unfold getBlock
    rw [hst]
    rfl
  · unfold rollback
    rw [if_neg (by omega), if_pos rfl]

/-- Witness for `claimC3_amended` at `state.height = 5`, target height
`3`, with `h[3] ↦ hash 7` in the store. -/
theorem claimC3_amended_witness :
    rollback ⟨0, 0, 5⟩ storeH3 3 =
      .ok (RollbackAct.deleteRangeThenSetTip (RangeKey.tBuildHeight 4)
        RangeKey.tMax ⟨7, 3, 0⟩)
    ∧ rollback ⟨0, 0, 5⟩ storeH3 5 = .ok RollbackAct.sameHeight :=
  claimC3_amended ⟨0, 0, 5⟩ storeH3 3 7 (by decide) (by simp [storeH3])

/-- Claim C4: for every tip with `tip.height ≤ state.height + 1`,
`setTip(tip)` succeeds and commits one batch that puts
`h[tip.height] = tip.hash` and `R = encode(newState)`; the batch deletes
`h[k]` exactly for `k ∈ (tip.height, state.height]` (so only when
`tip.height < state.height` are any heightmap entries deleted); the new
state's height is `tip.height`; and the start marker is reset to `tip`
exactly when `tip.height < state.startHeight`. -/
theorem claimC4 (s : IndexState) (tip : BlockMeta)
    (hle : tip.height ≤ s.height + 1) :
    ∃ s2 b, setTip s tip = .ok (s2, b)
      ∧ Op.put (IKey.h tip.height) (Val.hashVal tip.hash) ∈ b
      ∧ Op.put IKey.R (Val.stateVal s2) ∈ b
      ∧ s2.height = tip.height
      ∧ (∀ k, Op.del (IKey.h k) ∈ b ↔ (tip.height < k ∧ k ≤ s.height))
      ∧ (tip.height < s.startHeight →
          s2.startHeight = tip.height ∧ s2.startHash = tip.hash)
      ∧ (¬ tip.height < s.startHeight →
          s2.startHeight = s.startHeight ∧ s2.startHash = s.startHash) := by
  unfold setTip
  rw [if_neg (by omega)]
  refine ⟨_, _, rfl, ?_, ?_, ?_, ?_, ?_, ?_⟩
  · simp
  · simp
  · rcases Nat.lt_trichotomy tip.height s.height with hlt | heq | hgt
    · simp only [if_pos hlt]
      split <;> simp
    · simp only [heq, lt_irrefl, if_neg, ite_false, gt_iff_lt]
      split <;> simp [heq]
    · have h1 : ¬ tip.height < s.height := by omega
      have h2 : tip.height = s.height + 1 := by omega
      simp only [if_neg h1, if_pos (show tip.height > s.height from hgt)]
      split <;> simp [h2]
  · intro k
    simp only [List.mem_append, List.mem_cons, List.not_mem_nil, or_false]
    constructor
    · rintro (hmem | hmem | hmem)
      · by_cases hlt : tip.height < s.height
        · rw [if_pos hlt] at hmem
          exact (hDels_mem k s.height tip.height).mp hmem
        · rw [if_neg hlt] at hmem
          simp at hmem
      · exact absurd hmem (by simp)
      · exact absurd hmem (by simp)
    · rintro ⟨hk1, hk2⟩
      have hlt : tip.height < s.height := by omega
      rw [if_pos hlt]
      exact Or.inl ((hDels_mem k s.height tip.height).mpr ⟨hk1, hk2⟩)
  · intro hsh
    by_cases hlt : tip.height < s.height
    · simp [if_pos hlt, hsh]
    · by_cases hgt : tip.height > s.height
      · simp [if_neg hlt, if_pos hgt, hsh]
      · simp [if_neg hlt, if_neg hgt, hsh]
  · intro hsh
    by_cases hlt : tip.height < s.height
    · simp [if_pos hlt, hsh]
    · by_cases hgt : tip.height > s.height
      · simp [if_neg hlt, if_pos hgt, hsh]
      · simp [if_neg hlt, if_neg hgt, hsh]

/-- Witness for `claimC4` at `state = {startHeight 4, startHash 9,
height 5}` and `tip = {hash 11, height 2}` (a rewind that also resets
the start marker). -/
theorem claimC4_witness :
    (2 ≤ 5 + 1) ∧
      ∃ s2 b, setTip ⟨4, 9, 5⟩ ⟨11, 2, 0⟩ = .ok (s2, b)
        ∧ Op.put (IKey.h 2) (Val.hashVal 11) ∈ b
        ∧ Op.put IKey.R (Val.stateVal s2) ∈ b
        ∧ s2.height = 2
        ∧ (∀ k, Op.del (IKey.h k) ∈ b ↔ (2 < k ∧ k ≤ 5))
        ∧ (2 < 4 → s2.startHeight = 2 ∧ s2.startHash = 11)
        ∧ (¬ 2 < 4 → s2.startHeight = 4 ∧ s2.startHash = 9) :=
  ⟨by decide, claimC4 ⟨4, 9, 5⟩ ⟨11, 2, 0⟩ (by decide)⟩

/-- Claim C7: `verifyNetwork` writes the configured magic under `O`
(as 4 little-endian bytes, touching no other key) precisely when no `O`
record exists; when an `O` record exists it throws the network-mismatch
error exactly when the stored little-endian u32 differs from the
configured magic, and in every case where a record exists — match or
mismatch — the store is left unchanged. -/
theorem claimC7 (magic : Nat) (store : Store) :
    (store IKey.O = none →
      ∃ store2, verifyNetwork magic store = .ok store2
        ∧ store2 IKey.O = some (Val.raw (u32LE magic))
        ∧ ∀ k, k ≠ IKey.O → store2 k = store k)
    ∧ (∀ bs, store IKey.O = some (Val.raw bs) →
        (verifyNetwork magic store = .error (.idb .networkMismatch) ↔
          readU32LE bs ≠ magic))
    ∧ (∀ v, store IKey.O = some v →
        verifyNetwork magic store = .error (.idb .networkMismatch)
        ∨ verifyNetwork magic store = .ok store) := by
  refine ⟨?_, ?_, ?_⟩
  · intro hO
    unfold verifyNetwork
    rw [hO]
    refine ⟨_, rfl, ?_, ?_⟩
    · simp [applyBatch, applyOp]
    · intro k hk
      simp [applyBatch, applyOp, hk]
  · intro bs hO
    unfold verifyNetwork
    split
    · rename_i hnone
      rw [hO] at hnone
      exact absurd hnone (by simp)
    · rename_i v hsome
      rw [hO] at hsome
      injection hsome with hv
      subst hv
      simp only [Val.asBytes]
      by_cases hm : readU32LE bs ≠ magic
      · simp [hm]
      · simp [hm]
  · intro v hO
    unfold verifyNetwork
    split
    · rename_i hnone
      rw [hO] at hnone
      exact absurd hnone (by simp)
    · rename_i v2 hsome
      rw [hO] at hsome
      injection hsome with hv
      subst hv
      by_cases hm : readU32LE v.asBytes ≠ magic
      · exact Or.inl (by rw [if_pos hm])
      · exact Or.inr (by rw [if_neg hm])

/-- Witness for `claimC7`: on the empty store, magic `7` is written under
`O`; on a store whose `O` record holds little-endian magic `1`,
configured magic `7` raises the mismatch error. -/
theorem claimC7_witness :
    (∃ store2, verifyNetwork 7 emptyStore = .ok store2
      ∧ store2 IKey.O = some (Val.raw (u32LE 7))
      ∧ ∀ k, k ≠ IKey.O → store2 k = emptyStore k)
    ∧ verifyNetwork 7 storeO1 = .error (.idb .networkMismatch) :=
  ⟨(claimC7 7 emptyStore).1 rfl,
   ((claimC7 7 storeO1).2.1 [1, 0, 0, 0] (by simp [storeO1])).mpr (by decide)⟩

/-- Claim C8: for every block and entry, `TxIndexer.indexBlock` records
on its batch, for the transaction at each position `i`, exactly the
operation `put(t[tx_i.hash], TXMeta.fromTX(tx_i, entry, i).toRaw())`, in
block order; and `TxIndexer.unindexBlock` records exactly the operations
`del(t[tx_i.hash])`, one per transaction, in block order. -/
theorem claimC8 (entry : ChainEntry) (txs : List ATX) :
    txIndexOps entry txs =
      txs.enum.map (fun p => Op.put (IKey.t p.2.hash) (txMetaToRaw p.2 entry p.1))
    ∧ txUnindexOps txs = txs.map (fun tx => Op.del (IKey.t tx.hash)) := by
  constructor
  · rw [txIndexOps, txIndexOpsFrom_eq entry txs 0]
    rfl
  · induction txs with
    | nil => rfl
    | cons tx rest ih => simp only [txUnindexOps, List.map_cons, ih]

/-- Claim C1, evaluation at the failing input: index then unindex the
single-transaction block `[c1Tx]` (a coinbase paying address hash `1`,
tx hash `2`) with an empty view over the empty store.  `indexBlock`
commits `put(T[1,2])` and `put(C[1,2,0])`, but `unindexBlock` hits
`this.del(this.layout.T.build(addr, hash))` — `Plugin` has no `del`
method — and dies with a `TypeError` before its `b.write()`, so the
`T[1,2]` row survives the round trip and the pair is not a no-op on the
store: the claim fails, and the code (not the spec) is at fault, since
every neighbouring operation uses `b.put`/`b.del` on the batch and
`this.del` does not exist. -/
theorem claimC1_bug :
    addrIndexOps emptyView [c1Tx] =
      .ok [Op.put (IKey.T 1 2) Val.null, Op.put (IKey.C 1 2 0) Val.null]
    ∧ addrUnindexOps emptyView [c1Tx] = .error .typeErrorNoDel
    ∧ addrUnindexBlockRun emptyView [c1Tx]
        (addrIndexBlockRun emptyView [c1Tx] emptyStore) (IKey.T 1 2) = some Val.null
    ∧ emptyStore (IKey.T 1 2) = none := by
  refine ⟨rfl, rfl, rfl, rfl⟩

/-- Claim C9, the code evaluated against it: `BlockMeta.toRaw` allocates
a 42-byte static writer but writes only `32 + 4 + 4 = 40` bytes, so
bufio's `render()` assertion (`offset === data.length`) fails and
`toRaw` throws for every well-formed (32-byte-hash) `BlockMeta`, instead
of returning the 40-byte `hash ‖ u32 height ‖ u32 time` buffer the claim
describes. -/
theorem claimC9_bug (hashBytes : List Nat) (hlen : hashBytes.length = 32)
    (height time : Nat) :
    blockMetaToRaw hashBytes height time = .error .assertionFailed := by
  unfold blockMetaToRaw bioWrite SWriter.writeHash SWriter.writeU32 SWriter.render u32LE
  simp [hlen]

/-- Witness for `claimC9_bug` at the zero hash, height `0`, time `0`. -/
theorem claimC9_bug_witness :
    (List.replicate 32 0).length = 32
    ∧ blockMetaToRaw (List.replicate 32 0) 0 0 = .error .assertionFailed :=
  ⟨by decide, claimC9_bug (List.replicate 32 0) (by decide) 0 0⟩

end BcoinIndex
